import Mathlib

/-!
Verification of the value-classifier component of the GSP_L4 notebooks.

The only self-contained logic in the source is the custom classifier
function `classify_population` (source file part_000, cell
"Applying a custom classifier"):

    def classify_population(POP):
        if POP < 50:
            return 'Low'
        elif 50 <= POP < 250:
            return 'Medium'
        else:
            return 'High'

The surrounding spec also describes scheme-based operations `classify`,
`custom_classify` and `fit`; those operations are not implemented in the
source (fitting is delegated to third-party `mapclassify` constructors),
so they are modelled from the spec where a claim needs them.

Numeric values are embedded as rationals (`ℚ`); the floating-point NaN
behaviour of the Python comparisons is modelled separately with
`Option ℚ` where `none` stands for NaN, using the IEEE rule that every
ordered comparison involving NaN is false.
-/

namespace GSP

/-- Direct embedding of the source function `classify_population`:
the Python chained comparison `50 <= POP < 250` is the conjunction
`50 ≤ POP ∧ POP < 250`. -/
def classify_population (POP : ℚ) : String :=
  if POP < 50 then "Low"
  else if 50 ≤ POP ∧ POP < 250 then "Medium"
  else "High"

/-- Modelled from the spec: a classification scheme is an ordered
sequence of break-points together with the labels of the bins they
separate (`k` bins need `k - 1` break-points, so a well-formed scheme
has `labels.length = breaks.length + 1`). -/
structure Scheme where
  breaks : List ℚ
  labels : List String
deriving DecidableEq, Repr

/-- Index of the bin a value falls in: the position of the first
break-point the value is strictly below, or the number of break-points
when the value is at or above every break-point. -/
def classifyIdx (v : ℚ) : List ℚ → ℕ
  | [] => 0
  | b :: bs => if v < b then 0 else classifyIdx v bs + 1

/-- Modelled from the spec: `classify(value, scheme)` returns the label
of the interval containing the value; values below the first break-point
or above the last are clamped to the first or last bin. -/
def classify (v : ℚ) (s : Scheme) : Option String :=
  s.labels[classifyIdx v s.breaks]?

/-- The concrete scheme realised by `classify_population`. -/
def popScheme : Scheme :=
  { breaks := [50, 250], labels := ["Low", "Medium", "High"] }

/-- Position of a label of `popScheme` in the scheme's natural label
ordering. -/
def labelRank : String → ℕ
  | "Low" => 0
  | "Medium" => 1
  | _ => 2

/-- Errors of the spec's classifier component. -/
inductive ClassifierError where
  | invalidInput
  | unclassifiableValue
deriving DecidableEq, Repr

/-- Modelled from the spec: `custom_classify` evaluates the rules of an
ordered `(threshold, label)` table in order, returns the label of the
first rule whose threshold comparison matches (the cascade compares with
strict `<`), falls back to the default when no rule matches, and fails
with `UnclassifiableValueError` when no rule matches and no default is
supplied. -/
def custom_classify (v : ℚ) :
    List (ℚ × String) → Option String → Except ClassifierError String
  | [], none => .error .unclassifiableValue
  | [], some d => .ok d
  | r :: rules, dflt => if v < r.1 then .ok r.2 else custom_classify v rules dflt

/-- The rule table of the source's cascade, as a `custom_classify`
table: `< 50 → Low`, `< 250 → Medium`, default `High`. -/
def popRules : List (ℚ × String) := [(50, "Low"), (250, "Medium")]

/-- Modelled from the spec: `fit(values, k)` computes `k - 1` equal-interval
break-points partitioning `values` into `k` bins (the source delegates
fitting to third-party `mapclassify.NaturalBreaks` / `mapclassify.Quantiles`
constructors, so no fitting code is in the repository); it fails with
`InvalidInputError` when `values` is empty or `k` exceeds the number of
distinct values. -/
def fit (values : List ℚ) (k : ℕ) : Except ClassifierError Scheme :=
  match values with
  | [] => .error .invalidInput
  | v :: vs =>
      if values.dedup.length < k then .error .invalidInput
      else
        let lo := vs.foldl min v
        let hi := vs.foldl max v
        let w := (hi - lo) / k
        .ok { breaks := (List.range (k - 1)).map (fun i => lo + w * (i + 1)),
              labels := (List.range k).map (fun i => toString i) }

/-- Python float with NaN: `none` stands for NaN, `some q` for the
numeric value `q`. -/
def pfloat_lt : Option ℚ → Option ℚ → Bool
  | some a, some b => a < b
  | _, _ => false

/-- IEEE `<=` on Python floats: false whenever either side is NaN. -/
def pfloat_le : Option ℚ → Option ℚ → Bool
  | some a, some b => a ≤ b
  | _, _ => false

/-- The source function `classify_population` read over Python floats:
the same cascade, with the IEEE NaN-aware comparisons made explicit. -/
def classify_population_float (POP : Option ℚ) : String :=
  if pfloat_lt POP (some 50) then "Low"
  else if pfloat_le (some 50) POP && pfloat_lt POP (some 250) then "Medium"
  else "High"

-- Helper lemmas ---------------------------------------------------------

lemma classifyIdx_le_length (v : ℚ) : ∀ bs : List ℚ, classifyIdx v bs ≤ bs.length := by
  intro bs
  induction bs with
  | nil => simp [classifyIdx]
  | cons b bs ih =>
      simp only [classifyIdx, List.length_cons]
      split
      · omega
      · omega

lemma classifyIdx_mono (a b : ℚ) (h : a ≤ b) :
    ∀ bs : List ℚ, classifyIdx a bs ≤ classifyIdx b bs := by
  intro bs
  induction bs with
  | nil => simp [classifyIdx]
  | cons c bs ih =>
      simp only [classifyIdx]
      by_cases hb : b < c
      · have ha : a < c := lt_of_le_of_lt h hb
        simp [ha, hb]
      · by_cases ha : a < c
        · simp [ha, hb]
        · simp only [ha, hb, if_false]
          omega

lemma classifyIdx_of_lt_head (v b : ℚ) (bs : List ℚ) (h : v < b) :
    classifyIdx v (b :: bs) = 0 := by
  simp [classifyIdx, h]

lemma classifyIdx_of_ge_all (v : ℚ) :
    ∀ bs : List ℚ, (∀ b ∈ bs, b ≤ v) → classifyIdx v bs = bs.length := by
  intro bs
  induction bs with
  | nil => simp [classifyIdx]
  | cons b bs ih =>
      intro h
      have hb : b ≤ v := h b (List.mem_cons_self b bs)
      have hnb : ¬ v < b := not_lt.mpr hb
      simp only [classifyIdx, hnb, if_false, List.length_cons]
      have := ih (fun c hc => h c (List.mem_cons_of_mem b hc))
      omega

lemma classify_population_eq_classify (v : ℚ) :
    classify v popScheme = some (classify_population v) := by
  by_cases h1 : v < 50
  · simp [classify, popScheme, classifyIdx, classify_population, h1]
  · by_cases h2 : v < 250
    · have h3 : (50 : ℚ) ≤ v := not_lt.mp h1
      simp [classify, popScheme, classifyIdx, classify_population, h1, h2, h3]
    · simp [classify, popScheme, classifyIdx, classify_population, h1, h2]

lemma custom_classify_find (v : ℚ) :
    ∀ (rules : List (ℚ × String)) (dflt : Option String),
      custom_classify v rules dflt =
        match rules.find? (fun r => decide (v < r.1)) with
        | some r => .ok r.2
        | none =>
            match dflt with
            | some d => .ok d
            | none => .error .unclassifiableValue := by
  intro rules
  induction rules with
  | nil => intro dflt; cases dflt <;> rfl
  | cons r rules ih =>
      intro dflt
      by_cases h : v < r.1
      · simp [custom_classify, h, List.find?]
      · simp [custom_classify, h, List.find?, ih dflt]

lemma exists_getElem?_of_lt {α : Type} (l : List α) (i : ℕ) (h : i < l.length) :
    ∃ a, l[i]? = some a :=
  ⟨l[i], List.getElem?_eq_getElem h⟩

lemma getElem?_zero_eq_head? {α : Type} : ∀ l : List α, l[0]? = l.head? := by
  intro l
  cases l <;> simp

lemma getLast?_eq_getElem_pred {α : Type} :
    ∀ l : List α, l.getLast? = l[l.length - 1]? := by
  intro l
  induction l with
  | nil => rfl
  | cons a t ih =>
      cases t with
      | nil => rfl
      | cons b t =>
          rw [List.getLast?_cons_cons, ih]
          simp

lemma le_getLast_of_sorted :
    ∀ (l : List ℚ) (bn : ℚ), l.Sorted (· < ·) → l.getLast? = some bn →
      ∀ b ∈ l, b ≤ bn := by
  intro l
  induction l with
  | nil => intro bn _ h; simp at h
  | cons a t ih =>
      intro bn hs hlast b hb
      cases t with
      | nil =>
          simp only [List.getLast?_singleton, Option.some.injEq] at hlast
          simp only [List.mem_singleton] at hb
          rw [hb, hlast]
      | cons c t_tl =>
          rw [List.getLast?_cons_cons] at hlast
          rcases List.mem_cons.mp hb with hba | hbt
          · have hbn_mem : bn ∈ c :: t_tl := List.mem_of_getLast?_eq_some hlast
            have hlt := (List.sorted_cons.mp hs).1 bn hbn_mem
            exact hba ▸ le_of_lt hlt
          · exact ih bn (List.sorted_cons.mp hs).2 hlast b hbt

lemma labelRank_eq_classifyIdx (v : ℚ) :
    labelRank (classify_population v) = classifyIdx v popScheme.breaks := by
  by_cases h1 : v < 50
  · simp [classify_population, popScheme, classifyIdx, labelRank, h1]
  · by_cases h2 : v < 250
    · have h3 : (50 : ℚ) ≤ v := not_lt.mp h1
      simp [classify_population, popScheme, classifyIdx, labelRank, h1, h2, h3]
    · simp [classify_population, popScheme, classifyIdx, labelRank, h1, h2]

-- Claim theorems --------------------------------------------------------

/-- C1: for the scheme with break-points [50, 250] and labels
["Low", "Medium", "High"], classification sends 10 to "Low", 50 to
"Medium" (the break-point belongs to the upper bin: right-inclusive
lower bound), 249 to "Medium" and 1000 to "High"; `classify_population`
implements exactly this scheme. -/
theorem classify_population_examples :
    classify_population 10 = "Low" ∧
    classify_population 50 = "Medium" ∧
    classify_population 249 = "Medium" ∧
    classify_population 1000 = "High" ∧
    classify 10 popScheme = some "Low" ∧
    classify 50 popScheme = some "Medium" ∧
    classify 249 popScheme = some "Medium" ∧
    classify 1000 popScheme = some "High" := by
  refine ⟨by decide, by decide, by decide, by decide, ?_, ?_, ?_, ?_⟩ <;> decide

/-- C2: `custom_classify` returns the label of the first rule whose
threshold comparison matches (characterised by `List.find?` over the
ordered rule table), fails with `UnclassifiableValueError` exactly when
no rule matches and no default is supplied, and — being a pure function —
has no side effect; for the concrete rule table of the source cascade
(< 50 → "Low", < 250 → "Medium", default "High"), `classify_population`
realises this first-match semantics and never raises the error. -/
theorem custom_classify_first_match :
    (∀ (v : ℚ) (rules : List (ℚ × String)) (dflt : Option String),
        custom_classify v rules dflt =
          match rules.find? (fun r => decide (v < r.1)) with
          | some r => .ok r.2
          | none =>
              match dflt with
              | some d => .ok d
              | none => .error .unclassifiableValue) ∧
    (∀ (v : ℚ) (rules : List (ℚ × String)) (dflt : Option String),
        custom_classify v rules dflt = .error .unclassifiableValue ↔
          (∀ r ∈ rules, ¬ v < r.1) ∧ dflt = none) ∧
    (∀ v : ℚ, custom_classify v popRules (some "High") = .ok (classify_population v)) := by
  refine ⟨custom_classify_find, ?_, ?_⟩
  · intro v rules dflt
    induction rules with
    | nil =>
        cases dflt <;> simp [custom_classify]
    | cons r rules ih =>
        simp only [custom_classify]
        split
        next h =>
          constructor
          · intro hcontra
            simp at hcontra
          · rintro ⟨hall, -⟩
            exact absurd h (hall r (List.mem_cons_self r rules))
        next h =>
          rw [ih]
          constructor
          · rintro ⟨hall, hd⟩
            refine ⟨?_, hd⟩
            intro r hr
            rcases List.mem_cons.mp hr with hre | hm
            · rw [hre]; exact h
            · exact hall r hm
          · rintro ⟨hall, hd⟩
            exact ⟨fun r hr => hall r (List.mem_cons_of_mem _ hr), hd⟩
  · intro v
    by_cases h1 : v < 50
    · simp [custom_classify, popRules, classify_population, h1]
    · by_cases h2 : v < 250
      · have h3 : (50 : ℚ) ≤ v := not_lt.mp h1
        simp [custom_classify, popRules, classify_population, h1, h2, h3]
      · simp [custom_classify, popRules, classify_population, h1, h2]

/-- C3: totality — for every well-formed scheme (one more label than
break-points) and every value, `classify` assigns a label (it never
returns "no match"), and the concrete cascade `classify_population`
assigns exactly one label to every value. -/
theorem classify_total :
    (∀ (v : ℚ) (s : Scheme), s.labels.length = s.breaks.length + 1 →
        ∃ l, classify v s = some l) ∧
    (∀ v : ℚ, ∃! l, classify_population v = l) := by
  constructor
  · intro v s h
    apply exists_getElem?_of_lt
    have := classifyIdx_le_length v s.breaks
    omega
  · intro v
    exact ⟨classify_population v, rfl, fun l hl => hl.symm⟩

/-- C3 witness: the totality theorem applied to the concrete scheme of
the source at value 7. -/
theorem classify_total_witness :
    ∃ l, classify 7 popScheme = some l :=
  classify_total.1 7 popScheme (by decide)

/-- C4: clamping — for every scheme, a value below the first break-point
gets the first label and, when the break-points are sorted ascending and
the scheme is well-formed, a value at or above the last break-point gets
the last label; for `classify_population`, every value below 50
(arbitrarily negative included) gets "Low" and every value at or above
250 gets "High". -/
theorem classify_clamps :
    (∀ (v b0 : ℚ) (s : Scheme), s.breaks.head? = some b0 → v < b0 →
        classify v s = s.labels.head?) ∧
    (∀ (v bn : ℚ) (s : Scheme), s.breaks.Sorted (· < ·) →
        s.breaks.getLast? = some bn → bn ≤ v →
        s.labels.length = s.breaks.length + 1 →
        classify v s = s.labels.getLast?) ∧
    (∀ v : ℚ, v < 50 → classify_population v = "Low") ∧
    (∀ v : ℚ, 250 ≤ v → classify_population v = "High") := by
  refine ⟨?_, ?_, ?_, ?_⟩
  · intro v b0 s hh hv
    unfold classify
    rcases s with ⟨breaks, labels⟩
    cases breaks with
    | nil => simp at hh
    | cons b bs =>
        have hvb : v < b := by
          have hb : b = b0 := by simpa using hh
          rw [hb]
          exact hv
        rw [classifyIdx_of_lt_head v b bs hvb]
        exact getElem?_zero_eq_head? labels
  · intro v bn s hsort hlast hv hlen
    unfold classify
    have hall : ∀ b ∈ s.breaks, b ≤ v := fun b hb =>
      le_trans (le_getLast_of_sorted s.breaks bn hsort hlast b hb) hv
    rw [classifyIdx_of_ge_all v s.breaks hall, getLast?_eq_getElem_pred]
    congr 1
    omega
  · intro v hv
    simp [classify_population, hv]
  · intro v hv
    have h1 : ¬ v < 50 := by linarith
    have h2 : ¬ v < 250 := by linarith
    simp [classify_population, h1, h2]

/-- C4 witness: the clamping theorem applied to the concrete scheme at
10 (below the first break-point), 1000 (above the last), -5 and 999. -/
theorem classify_clamps_witness :
    classify 10 popScheme = popScheme.labels.head? ∧
    classify 1000 popScheme = popScheme.labels.getLast? ∧
    classify_population (-5) = "Low" ∧
    classify_population 999 = "High" :=
  ⟨classify_clamps.1 10 50 popScheme (by decide) (by decide),
   classify_clamps.2.1 1000 250 popScheme (by decide) (by decide) (by decide)
     (by decide),
   classify_clamps.2.2.1 (-5) (by decide),
   classify_clamps.2.2.2 999 (by decide)⟩

/-- C5: monotonicity — for every break-point list, the bin index is
monotone in the value, and for `classify_population`, if a < b then the
label of a is at or below the label of b in the natural ordering
"Low" ≤ "Medium" ≤ "High". -/
theorem classify_monotone :
    (∀ (a b : ℚ) (bs : List ℚ), a ≤ b → classifyIdx a bs ≤ classifyIdx b bs) ∧
    (∀ a b : ℚ, a < b →
        labelRank (classify_population a) ≤ labelRank (classify_population b)) := by
  constructor
  · intro a b bs h
    exact classifyIdx_mono a b h bs
  · intro a b h
    rw [labelRank_eq_classifyIdx, labelRank_eq_classifyIdx]
    exact classifyIdx_mono a b (le_of_lt h) popScheme.breaks

/-- C5 witness: the monotonicity theorem applied at 10 < 100. -/
theorem classify_monotone_witness :
    labelRank (classify_population 10) ≤ labelRank (classify_population 100) :=
  classify_monotone.2 10 100 (by decide)

/-- C6: `fit` fails with `InvalidInputError` exactly when the input
sequence is empty or `k` exceeds the number of distinct values (the
error is the synchronous return value; the operation is not retried). -/
theorem fit_invalid_input_iff :
    ∀ (values : List ℚ) (k : ℕ),
      fit values k = .error .invalidInput ↔
        values = [] ∨ values.dedup.length < k := by
  intro values k
  cases values with
  | nil => simp [fit]
  | cons v vs =>
      simp only [fit]
      split
      next h => simp [h]
      next h => simp [h]

/-- C7: determinism and idempotence — two applications of the pure
function `classify_population` to the same value yield the same label;
there is no hidden state to read or modify. -/
theorem classify_population_deterministic :
    ∀ v₁ v₂ : ℚ, v₁ = v₂ → classify_population v₁ = classify_population v₂ := by
  intro v₁ v₂ h
  rw [h]

/-- C7 witness: the determinism theorem applied at value 100. -/
theorem classify_population_deterministic_witness :
    classify_population 100 = classify_population 100 :=
  classify_population_deterministic 100 100 rfl

/-- C8: upper boundary — `classify_population 250 = "High"`: the
"Medium" bin is exactly the right-exclusive interval [50, 250) and the
"High" bin is exactly [250, ∞), mirroring the behaviour at the lower
break-point 50. -/
theorem classify_population_upper_boundary :
    classify_population 250 = "High" ∧
    (∀ v : ℚ, classify_population v = "Medium" ↔ 50 ≤ v ∧ v < 250) ∧
    (∀ v : ℚ, classify_population v = "High" ↔ 250 ≤ v) := by
  refine ⟨by decide, ?_, ?_⟩
  · intro v
    by_cases h1 : v < 50
    · simp only [classify_population, h1, if_true]
      constructor
      · intro h
        exact absurd h (by decide)
      · rintro ⟨h, -⟩
        linarith
    · by_cases h2 : v < 250
      · have h3 : (50 : ℚ) ≤ v := not_lt.mp h1
        simp [classify_population, h1, h2, h3]
      · simp only [classify_population, h1, if_false]
        have hc : ¬ (50 ≤ v ∧ v < 250) := fun hx => h2 hx.2
        rw [if_neg hc]
        constructor
        · intro h
          exact absurd h (by decide)
        · rintro ⟨-, h⟩
          exact absurd h h2
  · intro v
    by_cases h1 : v < 50
    · simp only [classify_population, h1, if_true]
      constructor
      · intro h
        exact absurd h (by decide)
      · intro h
        linarith
    · by_cases h2 : v < 250
      · have h3 : (50 : ℚ) ≤ v := not_lt.mp h1
        simp only [classify_population, h1, if_false, h2, h3, and_true, if_true]
        constructor
        · intro h
          exact absurd h (by decide)
        · intro h
          linarith
      · have hc : ¬ (50 ≤ v ∧ v < 250) := fun hx => h2 hx.2
        simp only [classify_population, h1, if_false, hc]
        simpa using not_lt.mp h2

/-- C9: NaN behaviour — on the Python-float reading of the cascade,
both comparisons `POP < 50` and `50 <= POP < 250` are false for NaN, so
`classify_population` silently returns "High" for NaN without raising an
error; on numeric values the float reading agrees with the rational
embedding. -/
theorem classify_population_float_nan :
    classify_population_float none = "High" ∧
    pfloat_lt none (some 50) = false ∧
    pfloat_le (some 50) none = false ∧
    pfloat_lt none (some 250) = false ∧
    (∀ q : ℚ, classify_population_float (some q) = classify_population q) := by
  refine ⟨rfl, rfl, rfl, rfl, ?_⟩
  intro q
  by_cases h1 : q < 50
  · simp [classify_population_float, classify_population, pfloat_lt, pfloat_le, h1]
  · by_cases h2 : q < 250
    · have h3 : (50 : ℚ) ≤ q := not_lt.mp h1
      simp [classify_population_float, classify_population, pfloat_lt, pfloat_le,
        h1, h2, h3]
    · simp [classify_population_float, classify_population, pfloat_lt, pfloat_le,
        h1, h2]

/-- C10: range invariant — every result of `classify_population` (on
rationals, and on the Python-float reading including NaN) is one of the
three labels "Low", "Medium", "High"; no other label, null, or
unclassified marker is possible. -/
theorem classify_population_range :
    (∀ v : ℚ, classify_population v ∈ (["Low", "Medium", "High"] : List String)) ∧
    (∀ p : Option ℚ,
        classify_population_float p ∈ (["Low", "Medium", "High"] : List String)) := by
  constructor
  · intro v
    unfold classify_population
    split
    · simp
    · split <;> simp
  · intro p
    unfold classify_population_float
    split
    · simp
    · split <;> simp

end GSP
